/-
  Verification of rootplotlib (jodafons/rootplotlib) against its
  natural-language specification.

  Shallow embedding of the python sources:
    - src/rootplotlib/__init__.py      (set_figure / get_figure)
    - src/rootplotlib/canvas.py        (create_ratio_canvas, format_canvas_axes)
    - src/rootplotlib/plots.py         (hist_divide, plot_hist, plot_hist_ratios)
    - src/rootplotlib/hist2d.py        (fill, density, divide, shift)

  Numeric values handled by ROOT as doubles are modelled as rationals (ℚ);
  the library performs only +, *, / on them.  Division follows ROOT's
  TH1::Divide convention for zero denominators (quotient bin set to 0),
  which coincides with ℚ's x / 0 = 0.
-/
import Mathlib

namespace Rootplotlib

/-! ### Drawing-surface data model

`TCanvas` and `TPad` keep the attributes the python code sets on them.
`TPad.GetHNDC` is ROOT's "height of pad in normalized canvas coordinates",
i.e. the vertical extent `yup - ylow`. -/

/-- A ROOT canvas as configured by the code: name, title, pixel size and
the fill style set by `create_ratio_canvas`. -/
structure TCanvas where
  name : String
  title : String
  canw : Int
  canh : Int
  fillStyle : Int
  deriving Repr, DecidableEq

/-- A ROOT pad: name, title, normalized extents, margins, fill color and
the draw option it was drawn with. -/
structure TPad where
  name : String
  title : String
  xlow : ℚ
  ylow : ℚ
  xup : ℚ
  yup : ℚ
  bottomMargin : ℚ
  topMargin : ℚ
  rightMargin : ℚ
  leftMargin : ℚ
  fillColor : Int
  drawnWith : Option String
  deriving Repr, DecidableEq

/-- ROOT's `TPad::GetHNDC`: the pad height in normalized coordinates. -/
def TPad.GetHNDC (p : TPad) : ℚ := p.yup - p.ylow

/-- Modelled from the spec: the `Figure` class lives in
`src/rootplotlib/figures.py`, which is not part of the provided sources.
Per spec §3/§4.1 a Figure owns one drawing-surface handle and an ordered
mapping of named sub-regions; `Figure()` is the empty figure,
`Figure(canvas)` wraps a raw surface with no sub-regions, and
`append` registers a new sub-region at the end of the ordering. -/
structure Figure where
  canvas : Option TCanvas
  pads : List TPad
  deriving Repr, DecidableEq

/-- Modelled from the spec: `Figure(canvas)` — wrap a raw surface handle
in a fresh Figure with no sub-regions. -/
def Figure.ofCanvas (c : TCanvas) : Figure := ⟨some c, []⟩

/-- Modelled from the spec: `Figure.append` registers a new named
sub-region at the end of the region ordering. -/
def Figure.append (f : Figure) (p : TPad) : Figure :=
  { f with pads := f.pads ++ [p] }

/-! ### `set_figure` / `get_figure` (src/rootplotlib/__init__.py, lines 18–45)

The process-wide current-figure slot is modelled by explicit state
passing: the slot before the call is an argument, the slot after the
call is the result. -/

/-- The argument of `set_figure`: `Union[ROOT.TCanvas, Figure]`. -/
inductive FigureOrCanvas where
  | fig (f : Figure)
  | canvas (c : TCanvas)
  deriving Repr, DecidableEq

/-- `set_figure(canvas)`: if the argument is already a `Figure`
(`type(canvas) is Figure`) install it directly, otherwise wrap the raw
canvas in a new `Figure`.  The previous slot content is discarded. -/
def set_figure (canvas : FigureOrCanvas) (_slot : Figure) : Figure :=
  match canvas with
  | .fig f => f
  | .canvas c => Figure.ofCanvas c

/-- `get_figure()`: returns the current slot content. -/
def get_figure (slot : Figure) : Figure := slot

/-! ### `create_ratio_canvas` (src/rootplotlib/canvas.py, lines 37–101) -/

/-- `create_ratio_canvas(name, title, canw, canh, ratio_size_as_fraction,
drawopt)`: canvas with fill style 4050, a top pad `"pad_top"` spanning
`[ratio_size_as_fraction, 1]` vertically and a bottom pad `"pad_bot"`
spanning `[0, ratio_size_as_fraction]`, appended in that order.  Margins
are divided by each pad's `GetHNDC`, as in the source. -/
def create_ratio_canvas (name : String) (title : String := "")
    (canw : Int := 700) (canh : Int := 500)
    (ratio_size_as_fraction : ℚ := 35/100) (drawopt : String := "pE1") :
    Figure :=
  let canvas : TCanvas := ⟨name, title, canw, canh, 4050⟩
  let fig := Figure.ofCanvas canvas
  let top : TPad :=
    { name := "pad_top", title := "This is the top pad"
      xlow := 0, ylow := ratio_size_as_fraction, xup := 1, yup := 1
      bottomMargin := 0, topMargin := 0, rightMargin := 0, leftMargin := 0
      fillColor := 0, drawnWith := none }
  let top := { top with bottomMargin := (2/100 : ℚ) / top.GetHNDC }
  let top := { top with topMargin := (4/100 : ℚ) / top.GetHNDC }
  let top := { top with rightMargin := (5/100 : ℚ) }
  let top := { top with leftMargin := (16/100 : ℚ) }
  let top := { top with fillColor := 0 }
  let top := { top with drawnWith := some drawopt }
  let fig := fig.append top
  let bot : TPad :=
    { name := "pad_bot", title := "This is the bottom pad"
      xlow := 0, ylow := 0, xup := 1, yup := ratio_size_as_fraction
      bottomMargin := 0, topMargin := 0, rightMargin := 0, leftMargin := 0
      fillColor := 0, drawnWith := none }
  let bot := { bot with bottomMargin := (12/100 : ℚ) / bot.GetHNDC }
  let bot := { bot with topMargin := (2/100 : ℚ) / bot.GetHNDC }
  let bot := { bot with rightMargin := (5/100 : ℚ) }
  let bot := { bot with leftMargin := (16/100 : ℚ) }
  let bot := { bot with fillColor := 0 }
  let bot := { bot with drawnWith := some drawopt }
  let fig := fig.append bot
  fig

/-! ### `format_canvas_axes` (src/rootplotlib/canvas.py, lines 105–165)

A drawable primitive is modelled by its duck-typed capabilities
(`hasattr(primitive, 'GetXaxis')` / `'GetZaxis'`) together with the
attribute state of its three axes.  The ROOT division specification
`SetNdivisions(n1, n2, n3)` always receives a three-element list in this
code (`[10,5,0]`, `[5,5,0]`) so a division spec is modelled as a triple;
the default `None` is `Option.none`, and subscripting `None`
(`YNDiv[0]` when `YNDiv is None`) raises a python `TypeError`. -/

/-- The python error that can escape `format_canvas_axes`:
subscripting `None`. -/
inductive PyError where
  | typeError
  deriving Repr, DecidableEq

/-- Attribute state of one ROOT axis (`TAxis`): everything
`format_canvas_axes` sets. -/
structure Axis where
  titleSize : ℚ
  titleOffset : ℚ
  titleFont : ℚ
  labelSize : ℚ
  labelOffset : ℚ
  labelFont : ℚ
  tickLength : ℚ
  ndivisions : Int × Int × Int
  deriving Repr, DecidableEq

/-- A primitive in a pad's list of primitives: its duck-typed axis
capabilities and its axis attribute state. -/
structure Drawable where
  hasX : Bool
  hasZ : Bool
  x : Axis
  y : Axis
  z : Axis
  deriving Repr, DecidableEq

/-- The keyword configuration of `format_canvas_axes`. -/
structure AxesConfig where
  XTitleSize : ℚ := 22
  XTitleOffset : ℚ := 98/100
  XTitleFont : ℚ := 43
  XLabelSize : ℚ := 22
  XLabelOffset : ℚ := 2/1000
  XLabelFont : ℚ := 43
  XNDiv : Option (Int × Int × Int) := none
  YTitleSize : ℚ := 22
  YTitleOffset : ℚ := 175/100
  YTitleFont : ℚ := 43
  YLabelSize : ℚ := 22
  YLabelOffset : ℚ := 6/1000
  YLabelFont : ℚ := 43
  YNDiv : Option (Int × Int × Int) := some (10, 5, 0)
  ZTitleSize : ℚ := 22
  ZTitleOffset : ℚ := 85/100
  ZTitleFont : ℚ := 43
  ZLabelSize : ℚ := 22
  ZLabelOffset : ℚ := 2/1000
  ZLabelFont : ℚ := 43
  deriving Repr, DecidableEq

/-- A pad carrying primitives, as seen by `format_canvas_axes` through
`canvas.GetListOfPrimitives()` and `canvas.GetHNDC()`. -/
structure PadState where
  hndc : ℚ
  primitives : List Drawable
  deriving Repr, DecidableEq

/-- Lines 138–146: the X-axis settings.  Title offset, label offset and
the fixed `0.02` tick length are divided by the pad's `GetHNDC`;
`SetNdivisions` runs only when `XNDiv` is truthy (`if XNDiv:`). -/
def applyXaxisCfg (cfg : AxesConfig) (hndc : ℚ) (ax : Axis) : Axis :=
  let ax := { ax with titleSize := cfg.XTitleSize }
  let ax := { ax with titleOffset := cfg.XTitleOffset / hndc }
  let ax := { ax with titleFont := cfg.XTitleFont }
  let ax := { ax with labelSize := cfg.XLabelSize }
  let ax := { ax with labelOffset := cfg.XLabelOffset / hndc }
  let ax := { ax with labelFont := cfg.XLabelFont }
  let ax := { ax with tickLength := (2/100 : ℚ) / hndc }
  match cfg.XNDiv with
  | none => ax
  | some nd => { ax with ndivisions := nd }

/-- Lines 147–153: the Y-axis settings.  Offsets are NOT scaled by the
pad height; `YNDiv[0]` is subscripted unconditionally, so `YNDiv = None`
raises a `TypeError`. -/
def applyYaxisCfg (cfg : AxesConfig) (ax : Axis) : Except PyError Axis :=
  let ax := { ax with titleSize := cfg.YTitleSize }
  let ax := { ax with titleOffset := cfg.YTitleOffset }
  let ax := { ax with titleFont := cfg.YTitleFont }
  let ax := { ax with labelSize := cfg.YLabelSize }
  let ax := { ax with labelOffset := cfg.YLabelOffset }
  let ax := { ax with labelFont := cfg.YLabelFont }
  match cfg.YNDiv with
  | none => .error .typeError
  | some nd => .ok { ax with ndivisions := nd }

/-- The axis value produced by the Y-axis block when `YNDiv` holds a
division spec `nd` (used to state the success case of
`applyYaxisCfg`). -/
def applyYaxisVal (cfg : AxesConfig) (nd : Int × Int × Int) (ax : Axis) :
    Axis :=
  let ax := { ax with titleSize := cfg.YTitleSize }
  let ax := { ax with titleOffset := cfg.YTitleOffset }
  let ax := { ax with titleFont := cfg.YTitleFont }
  let ax := { ax with labelSize := cfg.YLabelSize }
  let ax := { ax with labelOffset := cfg.YLabelOffset }
  let ax := { ax with labelFont := cfg.YLabelFont }
  { ax with ndivisions := nd }

/-- Lines 156–161: the Z-axis settings (offsets unscaled, no division
setting). -/
def applyZaxisCfg (cfg : AxesConfig) (ax : Axis) : Axis :=
  let ax := { ax with titleSize := cfg.ZTitleSize }
  let ax := { ax with titleOffset := cfg.ZTitleOffset }
  let ax := { ax with titleFont := cfg.ZTitleFont }
  let ax := { ax with labelSize := cfg.ZLabelSize }
  let ax := { ax with labelOffset := cfg.ZLabelOffset }
  let ax := { ax with labelFont := cfg.ZLabelFont }
  ax

/-- The X- and Y-axis block applied to one primitive (lines 138–153). -/
def formatPrimitiveXY (cfg : AxesConfig) (hndc : ℚ) (d : Drawable) :
    Except PyError Drawable := do
  let x := applyXaxisCfg cfg hndc d.x
  let y ← applyYaxisCfg cfg d.y
  return { d with x := x, y := y }

/-- The primitive loop (lines 135–163).  A primitive without `GetXaxis`
is skipped; for one with it, the X- and Y-axis settings are applied,
then: if it has no `GetZaxis` the loop CONTINUES with the rest of the
list, otherwise the Z settings are applied and the loop breaks. -/
def formatLoop (cfg : AxesConfig) (hndc : ℚ) :
    List Drawable → Except PyError (List Drawable)
  | [] => .ok []
  | d :: rest =>
    if d.hasX = false then do
      let r ← formatLoop cfg hndc rest
      return d :: r
    else do
      let d1 ← formatPrimitiveXY cfg hndc d
      if d.hasZ = false then do
        let r ← formatLoop cfg hndc rest
        return d1 :: r
      else
        return { d1 with z := applyZaxisCfg cfg d1.z } :: rest

/-- `format_canvas_axes` restricted to its primitive-formatting effect
on the resolved pad (the figure/pad resolution and the final
`Modified`/`Update` calls carry no formatting state). -/
def format_canvas_axes (cfg : AxesConfig) (pad : PadState) :
    Except PyError PadState := do
  let prims ← formatLoop cfg pad.hndc pad.primitives
  return { pad with primitives := prims }

/-- The per-drawable effect of a non-breaking loop iteration (division
spec `nd` taken from `YNDiv`): an X-capable drawable receives the X- and
Y-axis configuration and the loop `continue`s because it has no Z axis;
an X-less drawable is skipped unchanged. -/
def formatNoBreak (cfg : AxesConfig) (hndc : ℚ) (nd : Int × Int × Int)
    (e : Drawable) : Drawable :=
  if e.hasX = true then
    { e with x := applyXaxisCfg cfg hndc e.x, y := applyYaxisVal cfg nd e.y }
  else e

/-- The per-drawable effect of the breaking loop iteration: the X-, Y-
and Z-axis configuration applied to a drawable with both axes. -/
def formatBreak (cfg : AxesConfig) (hndc : ℚ) (nd : Int × Int × Int)
    (d : Drawable) : Drawable :=
  { d with x := applyXaxisCfg cfg hndc d.x
           y := applyYaxisVal cfg nd d.y
           z := applyZaxisCfg cfg d.z }

/-! ### Histograms (`ROOT.TH1`-like objects)

A histogram keeps its name, its number of X bins, its bin contents
(`content b` for the ROOT global bin index `b`: 0 is the underflow bin,
`nbinsX + 1` the overflow bin), and the presentation attributes the
plotting code sets.  `TH1::Divide` is bin-by-bin division with ROOT's
zero-denominator convention (quotient bin 0), which is ℚ's `x / 0 = 0`. -/

structure Hist where
  name : String
  nbinsX : Nat
  content : Int → ℚ
  xLabelSize : ℚ
  lineColor : Int
  markerColor : Int
  markerStyle : Int
  markerSize : Int

instance : Inhabited Hist :=
  ⟨{ name := "", nbinsX := 0, content := fun _ => 0, xLabelSize := 0
     lineColor := 0, markerColor := 0, markerStyle := 0, markerSize := 0 }⟩

/-! ### `hist_divide` (src/rootplotlib/plots.py, lines 32–56) -/

/-- `hist_divide(num, den)`: clone the numerator, rename the clone
`"<num>_over_<den>"`, and `Divide` it bin-by-bin by the denominator. -/
def hist_divide (num den : Hist) : Hist :=
  let num_name := num.name
  let den_name := den.name
  let ratio_name := num_name ++ "_over_" ++ den_name
  let ratio := num
  let ratio := { ratio with name := ratio_name }
  let ratio := { ratio with content := fun b => ratio.content b / den.content b }
  ratio

/-! ### `plot_hist` / `plot_hist_ratios` (src/rootplotlib/plots.py)

Both loops run over `zip(hists, colors, markers)`; a faithful
truncating three-way zip is defined here.  The observable effect that
the claims speak about is the sequence of `fig.add_hist` calls: each
entry records the (styled) histogram, the draw option and the target
pad. -/

/-- Python's three-way `zip`: truncates to the shortest input. -/
def zip3 : List Hist → List Int → List Int → List (Hist × Int × Int)
  | h :: hs, c :: cs, m :: ms => (h, c, m) :: zip3 hs cs ms
  | _, _, _ => []

/-- Per-iteration styling in `plot_hist` (lines 136–140) and for the
top-pad histograms of `plot_hist_ratios` (lines 194–198):
`GetXaxis().SetLabelSize(0)`, line and marker color, marker style,
marker size 1. -/
def styleHist (h : Hist) (color marker : Int) : Hist :=
  let h := { h with xLabelSize := 0 }
  let h := { h with lineColor := color }
  let h := { h with markerColor := color }
  let h := { h with markerStyle := marker }
  let h := { h with markerSize := 1 }
  h

/-- Styling of a ratio histogram (lines 204–207): same as `styleHist`
but without touching the axis label size. -/
def styleRatioHist (h : Hist) (color marker : Int) : Hist :=
  let h := { h with lineColor := color }
  let h := { h with markerColor := color }
  let h := { h with markerStyle := marker }
  let h := { h with markerSize := 1 }
  h

/-- One `fig.add_hist(hist, drawopt, pad)` call: histogram, draw option,
target pad (`""` denotes the default region). -/
structure AddCall where
  hist : Hist
  drawopt : String
  pad : String

/-- `plot_hist` (lines 133–147): the sequence of `fig.add_hist` calls —
one per `(hist, color, marker)` triple of the truncating zip, each into
the default region with the caller's draw option. -/
def plot_hist (hists : List Hist) (colors markers : List Int)
    (drawopt : String := "pE1") : List AddCall :=
  (zip3 hists colors markers).map
    (fun t => ⟨styleHist t.1 t.2.1 t.2.2, drawopt, ""⟩)

/-- The `idx ≥ 1` part of the `plot_hist_ratios` loop (lines 202–208):
each subsequent histogram goes to `"pad_top"` and its ratio against the
fixed reference (`hist_ref`, the first histogram) goes to `"pad_bot"`
with draw option `"P"`. -/
def ratiosLoop (hist_ref : Hist) (ref_place drawopt : String) :
    List (Hist × Int × Int) → List AddCall
  | [] => []
  | (hist, color, marker) :: rest =>
    let hist := styleHist hist color marker
    let top : AddCall := ⟨hist, drawopt, "pad_top"⟩
    let hist_ratio :=
      if ref_place = "den" then hist_divide hist hist_ref
      else hist_divide hist_ref hist
    let hist_ratio := styleRatioHist hist_ratio color marker
    let bot : AddCall := ⟨hist_ratio, "P", "pad_bot"⟩
    top :: bot :: ratiosLoop hist_ref ref_place drawopt rest

/-- `plot_hist_ratios` (lines 191–209): the sequence of `fig.add_hist`
calls.  The first zipped histogram becomes `hist_ref` and is only added
to `"pad_top"`; every later one is added to `"pad_top"` and its ratio
against `hist_ref` to `"pad_bot"`. -/
def plot_hist_ratios (hists : List Hist) (colors markers : List Int)
    (ref_place : String := "den") (drawopt : String := "pE1") :
    List AddCall :=
  match zip3 hists colors markers with
  | [] => []
  | (hist, color, marker) :: rest =>
    let hist_ref := styleHist hist color marker
    ⟨hist_ref, drawopt, "pad_top"⟩ :: ratiosLoop hist_ref ref_place drawopt rest

/-! ### 2D histograms and `fill` (src/rootplotlib/hist2d.py, lines 38–63)

A `TH2F` is modelled by its name and the multiset of `(x, y, weight)`
fill entries it has received (the bin contents are a function of those
entries; `fill` appends, with weight 1, and nothing else).  The
`FillN`-vs-`Fill` try/except fallback fills identical data either way
and is therefore a single operation here. -/

structure Hist2D where
  name : String
  entries : List (ℚ × ℚ × ℚ)
  deriving Repr, DecidableEq

/-- `fill(hist, xvalues, yvalues)`: if the lengths differ, print a
message and return without filling; otherwise fill each `(x, y)` pair
with weight 1.  The second component is the printed message, if any. -/
def fill (hist : Hist2D) (xvalues yvalues : List ℚ) :
    Hist2D × Option String :=
  if xvalues.length ≠ yvalues.length then
    (hist,
     some "It is not possible to fill the histogram. x/y values must be the same size")
  else
    ({ hist with
       entries := hist.entries ++ (xvalues.zip yvalues).map (fun p => (p.1, p.2, 1)) },
     none)

/-! ### Object-store semantics for the cloning helpers

`density`, `divide`, `shift` (src/rootplotlib/hist2d.py) and
`hist_divide` (src/rootplotlib/plots.py) work on heap-allocated ROOT
objects through references.  To make mutation (or its absence)
observable, the heap is an explicit store — a list of histograms — and
those four helpers are re-expressed as store transformers: a reference
is an index, `Clone` appends a copy at a fresh index, and every method
call on an object is a write at its index. -/

/-- The object store: index = object reference. -/
abbrev Store : Type := List Hist

/-- Number of live objects. -/
def Store.size (s : Store) : Nat := List.length s

/-- Dereference: the object at index `i`. -/
def Store.read (s : Store) (i : Nat) : Hist :=
  List.getD s i default

/-- A method call on the object at index `j`: replace it by `f` of it. -/
def Store.write (s : Store) (j : Nat) (f : Hist → Hist) : Store :=
  List.set s j (f (Store.read s j))

/-- `hist.Clone()`: allocate a copy of the object at `i` at a fresh
index and return the new store with that index. -/
def Store.clone (s : Store) (i : Nat) : Store × Nat :=
  (s ++ [Store.read s i], Store.size s)

/-- `TH1::Integral()`: sum of the in-range bins `1 .. nbinsX`. -/
def Hist.Integral (h : Hist) : ℚ :=
  ((List.range h.nbinsX).map (fun k => h.content ((k : Int) + 1))).sum

/-- `TH1::Scale(c)`: multiply every bin content by `c`. -/
def Hist.Scale (c : ℚ) (h : Hist) : Hist :=
  { h with content := fun b => c * h.content b }

/-- `TH1::Divide(den)`: bin-by-bin division (0 where the denominator
bin is 0, matching ℚ division). -/
def Hist.Divide (den : Hist) (h : Hist) : Hist :=
  { h with content := fun b => h.content b / den.content b }

/-- `TH1::SetBinContent(b, v)`. -/
def Hist.SetBinContent (b : Int) (v : ℚ) (h : Hist) : Hist :=
  { h with content := fun x => if x = b then v else h.content x }

/-- `TH1::Reset('M')`: bin contents (and min/max) are reset to zero. -/
def Hist.ResetM (h : Hist) : Hist :=
  { h with content := fun _ => 0 }

/-- `density(hist)` (hist2d.py lines 66–70): clone, rename the clone
`"<name>_density"`, scale the clone by `1 / Integral`. -/
def Store.density (s : Store) (i : Nat) : Store × Nat :=
  let hist := Store.read s i
  let (s, j) := Store.clone s i
  let s := Store.write s j (fun h => { h with name := hist.name ++ "_density" })
  let s := Store.write s j (fun h => Hist.Scale (1 / h.Integral) h)
  (s, j)

/-- `divide(hist_num, hist_den)` (hist2d.py lines 73–77): clone the
numerator, rename the clone `"<num>_ratio"`, divide the clone by the
denominator object. -/
def Store.divide (s : Store) (inum iden : Nat) : Store × Nat :=
  let hist_num := Store.read s inum
  let (s, j) := Store.clone s inum
  let s := Store.write s j (fun h => { h with name := hist_num.name ++ "_ratio" })
  let den := Store.read s iden
  let s := Store.write s j (fun h => Hist.Divide den h)
  (s, j)

/-- The copy loop of `shift` (hist2d.py lines 84–86): for each `b` in
`range(1, hist.GetNbinsX())`, read bin `b` of the original object at
`i` and write it into bin `b + shift_units` of the clone at `j`. -/
def shiftLoop (i j : Nat) (shift_units : Int) :
    List Nat → Store → Store
  | [], s => s
  | b :: bs, s =>
    let content := (Store.read s i).content (b : Int)
    let s := Store.write s j (Hist.SetBinContent ((b : Int) + shift_units) content)
    shiftLoop i j shift_units bs s

/-- `shift(hist, shift_units)` (hist2d.py lines 80–87): clone, rename
the clone `"<name>_shift"`, reset the clone, then copy bins
`1 .. nbinsX - 1` of the original into bins `1 + shift_units ..
nbinsX - 1 + shift_units` of the clone (`range(1, N)` stops at `N-1`). -/
def Store.shift (s : Store) (i : Nat) (shift_units : Int) : Store × Nat :=
  let hist := Store.read s i
  let (s, j) := Store.clone s i
  let s := Store.write s j (fun h => { h with name := hist.name ++ "_shift" })
  let s := Store.write s j Hist.ResetM
  let s := shiftLoop i j shift_units (List.range' 1 (hist.nbinsX - 1)) s
  (s, j)

/-- `hist_divide(num, den)` (plots.py lines 32–56) as a store
transformer: read both names, clone the numerator, rename the clone
`"<num>_over_<den>"`, divide the clone by the denominator object. -/
def Store.histDivide (s : Store) (inum iden : Nat) : Store × Nat :=
  let num_name := (Store.read s inum).name
  let den_name := (Store.read s iden).name
  let ratio_name := num_name ++ "_over_" ++ den_name
  let (s, j) := Store.clone s inum
  let s := Store.write s j (fun h => { h with name := ratio_name })
  let den := Store.read s iden
  let s := Store.write s j (fun h => Hist.Divide den h)
  (s, j)

/-! ### Concrete inputs used by witnesses and counterexamples -/

instance : Inhabited AddCall := ⟨⟨default, "", ""⟩⟩

instance : Inhabited Drawable :=
  ⟨{ hasX := false, hasZ := false
     x := ⟨0, 0, 0, 0, 0, 0, 0, (0, 0, 0)⟩
     y := ⟨0, 0, 0, 0, 0, 0, 0, (0, 0, 0)⟩
     z := ⟨0, 0, 0, 0, 0, 0, 0, (0, 0, 0)⟩ }⟩

/-- A concrete two-bin histogram named `"a"`. -/
def histExA : Hist :=
  { name := "a", nbinsX := 2, content := fun b => (b : ℚ), xLabelSize := 1
    lineColor := 0, markerColor := 0, markerStyle := 0, markerSize := 0 }

/-- A concrete two-bin histogram named `"b"`. -/
def histExB : Hist :=
  { name := "b", nbinsX := 2, content := fun b => (2 * b : ℚ), xLabelSize := 1
    lineColor := 0, markerColor := 0, markerStyle := 0, markerSize := 0 }

/-- An axis with all attributes zero. -/
def axisZero : Axis := ⟨0, 0, 0, 0, 0, 0, 0, (0, 0, 0)⟩

/-- A drawable exposing an X axis but no Z axis (e.g. a `TGraph`). -/
def drawXonly : Drawable :=
  { hasX := true, hasZ := false, x := axisZero, y := axisZero, z := axisZero }

/-- A drawable exposing X and Z axes (e.g. a `TH1`). -/
def drawXZ : Drawable :=
  { hasX := true, hasZ := true, x := axisZero, y := axisZero, z := axisZero }

/-! ### Helper lemmas -/

theorem Store.size_write (s : Store) (j : Nat) (f : Hist → Hist) :
    (Store.write s j f).size = s.size := by
  simp [Store.write, Store.size]

theorem Store.read_write_ne (s : Store) (j k : Nat) (f : Hist → Hist)
    (h : k ≠ j) : Store.read (Store.write s j f) k = Store.read s k := by
  simp [Store.write, Store.read, List.getD_eq_getElem?_getD,
    List.getElem?_set_ne (Ne.symm h)]

theorem Store.read_write_self (s : Store) (j : Nat) (f : Hist → Hist)
    (h : j < s.size) :
    Store.read (Store.write s j f) j = f (Store.read s j) := by
  simp [Store.write, Store.read, List.getD_eq_getElem?_getD,
    List.getElem?_set_self h, List.getElem?_eq_getElem h]

theorem Store.size_clone (s : Store) (i : Nat) :
    ((Store.clone s i).1).size = s.size + 1 := by
  simp [Store.clone, Store.size]

theorem Store.read_clone_old (s : Store) (i k : Nat) (h : k < s.size) :
    Store.read (Store.clone s i).1 k = Store.read s k := by
  simp [Store.clone, Store.read, List.getD_eq_getElem?_getD,
    List.getElem?_append_left h]

theorem Store.read_clone_new (s : Store) (i : Nat) :
    Store.read (Store.clone s i).1 s.size = Store.read s i := by
  simp [Store.clone, Store.read, Store.size, List.getD_eq_getElem?_getD,
    List.getElem?_concat_length]

theorem styleHist_name (h : Hist) (c m : Int) :
    (styleHist h c m).name = h.name := rfl

theorem styleHist_content (h : Hist) (c m : Int) :
    (styleHist h c m).content = h.content := rfl

theorem styleRatioHist_name (h : Hist) (c m : Int) :
    (styleRatioHist h c m).name = h.name := rfl

theorem styleRatioHist_content (h : Hist) (c m : Int) :
    (styleRatioHist h c m).content = h.content := rfl

theorem hist_divide_name (num den : Hist) :
    (hist_divide num den).name = num.name ++ "_over_" ++ den.name := rfl

theorem hist_divide_content (num den : Hist) :
    (hist_divide num den).content = fun b => num.content b / den.content b := rfl

theorem zip3_length (hs : List Hist) (cs ms : List Int) :
    (zip3 hs cs ms).length = min hs.length (min cs.length ms.length) := by
  induction hs generalizing cs ms with
  | nil => cases cs <;> cases ms <;> simp [zip3]
  | cons h ht ih =>
    cases cs with
    | nil => simp [zip3]
    | cons c ct =>
      cases ms with
      | nil => simp [zip3]
      | cons m mt => simp [zip3, ih]; omega

theorem zip3_getElem? (hs : List Hist) (cs ms : List Int) (k : Nat)
    (hh : k < hs.length) (hc : k < cs.length) (hm : k < ms.length) :
    (zip3 hs cs ms)[k]?
      = some (hs.getD k default, cs.getD k 0, ms.getD k 0) := by
  induction hs generalizing cs ms k with
  | nil => simp at hh
  | cons h ht ih =>
    cases cs with
    | nil => simp at hc
    | cons c ct =>
      cases ms with
      | nil => simp at hm
      | cons m mt =>
        cases k with
        | zero => simp [zip3]
        | succ k =>
          simp only [zip3, List.getElem?_cons_succ, List.getD_cons_succ]
          exact ih ct mt k (by simpa using hh) (by simpa using hc)
            (by simpa using hm)

theorem ratiosLoop_length (hist_ref : Hist) (rp dropt : String)
    (l : List (Hist × Int × Int)) :
    (ratiosLoop hist_ref rp dropt l).length = 2 * l.length := by
  induction l with
  | nil => simp [ratiosLoop]
  | cons hd t ih =>
    obtain ⟨a, c, m⟩ := hd
    simp [ratiosLoop, ih]
    omega

theorem ratiosLoop_getElem? (hist_ref : Hist) (rp dropt : String)
    (l : List (Hist × Int × Int)) (k : Nat) (hk : k < l.length) :
    (ratiosLoop hist_ref rp dropt l)[2 * k + 1]?
      = some ⟨styleRatioHist
          (if rp = "den" then
            hist_divide
              (styleHist (l.getD k default).1 (l.getD k default).2.1
                (l.getD k default).2.2) hist_ref
           else
            hist_divide hist_ref
              (styleHist (l.getD k default).1 (l.getD k default).2.1
                (l.getD k default).2.2))
          (l.getD k default).2.1 (l.getD k default).2.2, "P", "pad_bot"⟩ := by
  induction l generalizing k with
  | nil => simp at hk
  | cons hd t ih =>
    obtain ⟨a, c, m⟩ := hd
    cases k with
    | zero => simp [ratiosLoop]
    | succ k =>
      have harith : 2 * (k + 1) + 1 = (2 * k + 1) + 1 + 1 := by omega
      rw [harith]
      simp only [ratiosLoop, List.getElem?_cons_succ, List.getD_cons_succ]
      exact ih k (by simpa using hk)

/-! ### Claim theorems -/

/-- C1: for every name, title, width, height, ratio fraction `r` and draw
option, `create_ratio_canvas` registers exactly two sub-regions, named
`"pad_top"` and `"pad_bot"`, in top-then-bottom order, where `"pad_bot"`
has normalized vertical extent `[0, r]` and `"pad_top"` has extent
`[r, 1]`. -/
theorem C1_create_ratio_canvas_regions (name title : String)
    (canw canh : Int) (r : ℚ) (drawopt : String) :
    (create_ratio_canvas name title canw canh r drawopt).pads.map TPad.name
      = ["pad_top", "pad_bot"] ∧
    (create_ratio_canvas name title canw canh r drawopt).pads.map
        (fun p => (p.ylow, p.yup))
      = [(r, 1), (0, r)] :=
  ⟨rfl, rfl⟩

/-- C4: `get_figure()` after `set_figure(X)` returns exactly the installed
value: `X` itself when `X` is already a `Figure`, and a newly constructed
`Figure` wrapping `X` (surface `X`, no sub-regions) when `X` is a raw
canvas handle; the result never depends on the previous slot content
(unconditional replacement). -/
theorem C4_set_figure_get_figure (slot slot₂ : Figure) (F : Figure)
    (c : TCanvas) :
    get_figure (set_figure (.fig F) slot) = F ∧
    get_figure (set_figure (.canvas c) slot) = ⟨some c, []⟩ ∧
    (∀ x : FigureOrCanvas, set_figure x slot = set_figure x slot₂) :=
  ⟨rfl, rfl, fun _ => rfl⟩

/-- C7: `fill` on x/y sequences of unequal length prints the length-
mismatch message and returns normally (it is a total function here — no
exception path exists in this branch) with the histogram unchanged. -/
theorem C7_fill_length_mismatch (hist : Hist2D) (xvalues yvalues : List ℚ)
    (h : xvalues.length ≠ yvalues.length) :
    (fill hist xvalues yvalues).1 = hist ∧
    (fill hist xvalues yvalues).2 =
      some "It is not possible to fill the histogram. x/y values must be the same size" := by
  simp [fill, h]

/-- Witness for C7 at a concrete mismatched input. -/
theorem C7_fill_length_mismatch_witness :
    ([(1 : ℚ)].length ≠ ([] : List ℚ).length) ∧
    ((fill ⟨"h", []⟩ [(1 : ℚ)] []).1 = ⟨"h", []⟩ ∧
     (fill ⟨"h", []⟩ [(1 : ℚ)] []).2 =
       some "It is not possible to fill the histogram. x/y values must be the same size") :=
  ⟨by decide, C7_fill_length_mismatch ⟨"h", []⟩ [(1 : ℚ)] [] (by decide)⟩

/-- C5: `plot_hist` adds exactly `min(N, |colors|, |markers|)` histograms
to the default region (zip truncation); when both style lists have
length at least `N`, all `N` histograms are added and histogram `i` is
styled with color `i` (line and marker) and marker style `i`, pairwise
in lock-step order. -/
theorem C5_plot_hist_pairwise (hists : List Hist) (colors markers : List Int)
    (drawopt : String) :
    (plot_hist hists colors markers drawopt).length
      = min hists.length (min colors.length markers.length) ∧
    (hists.length ≤ colors.length → hists.length ≤ markers.length →
      (plot_hist hists colors markers drawopt).length = hists.length ∧
      ∀ i, i < hists.length →
        (plot_hist hists colors markers drawopt).getD i default
          = ⟨styleHist (hists.getD i default) (colors.getD i 0)
              (markers.getD i 0), drawopt, ""⟩) := by
  refine ⟨by simp [plot_hist, zip3_length], fun hc hm => ⟨?_, fun i hi => ?_⟩⟩
  · simp only [plot_hist, List.length_map, zip3_length]
    omega
  · have h1 := zip3_getElem? hists colors markers i hi (by omega) (by omega)
    simp [plot_hist, List.getD_eq_getElem?_getD, List.getElem?_map, h1]

/-- Witness for C5 on a two-histogram input with style lists of the same
length, with all hypotheses discharged at the concrete input. -/
theorem C5_plot_hist_pairwise_witness :
    (plot_hist [default, default] [2, 3] [4, 5] "pE1").length = 2 ∧
    (plot_hist [default, default] [2, 3] [4, 5] "pE1").getD 1 default
      = ⟨styleHist default 3 5, "pE1", ""⟩ := by
  have h := (C5_plot_hist_pairwise [default, default] [2, 3] [4, 5]
    "pE1").2 (by decide) (by decide)
  exact ⟨h.1, h.2 1 (by decide)⟩

/-- C2: in `plot_hist_ratios` the ratio series for histogram `i ≥ 1`
(the `2i`-th `add_hist` call, drawn into `"pad_bot"`) is histogram `i`
divided bin-by-bin by histogram `0` when `ref_place = "den"`, and
histogram `0` divided by histogram `i` otherwise; it is named
`"<num>_over_<den>"` (the clone-and-rename of the numerator inside
`hist_divide`), so the reference is always histogram `0`, never the
immediately preceding series. -/
theorem C2_plot_hist_ratios_reference (hists : List Hist)
    (colors markers : List Int) (ref_place drawopt : String) (i : Nat)
    (h1 : 1 ≤ i) (hh : i < hists.length) (hc : i < colors.length)
    (hm : i < markers.length) :
    ((plot_hist_ratios hists colors markers ref_place drawopt).getD
        (2 * i) default).pad = "pad_bot" ∧
    ((plot_hist_ratios hists colors markers ref_place drawopt).getD
        (2 * i) default).drawopt = "P" ∧
    (if ref_place = "den" then
      ((plot_hist_ratios hists colors markers ref_place drawopt).getD
          (2 * i) default).hist.name
        = (hists.getD i default).name ++ "_over_" ++ (hists.getD 0 default).name ∧
      ((plot_hist_ratios hists colors markers ref_place drawopt).getD
          (2 * i) default).hist.content
        = fun b => (hists.getD i default).content b
            / (hists.getD 0 default).content b
     else
      ((plot_hist_ratios hists colors markers ref_place drawopt).getD
          (2 * i) default).hist.name
        = (hists.getD 0 default).name ++ "_over_" ++ (hists.getD i default).name ∧
      ((plot_hist_ratios hists colors markers ref_place drawopt).getD
          (2 * i) default).hist.content
        = fun b => (hists.getD 0 default).content b
            / (hists.getD i default).content b) := by
  obtain ⟨k, rfl⟩ : ∃ k, i = k + 1 := ⟨i - 1, by omega⟩
  cases hists with
  | nil => simp at hh
  | cons h0 ht =>
  cases colors with
  | nil => simp at hc
  | cons c0 ct =>
  cases markers with
  | nil => simp at hm
  | cons m0 mt =>
  have hkh : k < ht.length := by simpa using hh
  have hkc : k < ct.length := by simpa using hc
  have hkm : k < mt.length := by simpa using hm
  have hz : k < (zip3 ht ct mt).length := by
    rw [zip3_length]; omega
  have hloop := ratiosLoop_getElem? (styleHist h0 c0 m0) ref_place drawopt
    (zip3 ht ct mt) k hz
  have helt : (zip3 ht ct mt).getD k default
      = (ht.getD k default, ct.getD k 0, mt.getD k 0) := by
    have := zip3_getElem? ht ct mt k hkh hkc hkm
    simp [List.getD_eq_getElem?_getD, this]
  rw [helt] at hloop
  have harith : 2 * (k + 1) = (2 * k + 1) + 1 := by omega
  have hE : (plot_hist_ratios (h0 :: ht) (c0 :: ct) (m0 :: mt) ref_place
      drawopt).getD (2 * (k + 1)) default
      = ⟨styleRatioHist
          (if ref_place = "den" then
            hist_divide
              (styleHist (ht.getD k default) (ct.getD k 0) (mt.getD k 0))
              (styleHist h0 c0 m0)
           else
            hist_divide (styleHist h0 c0 m0)
              (styleHist (ht.getD k default) (ct.getD k 0) (mt.getD k 0)))
          (ct.getD k 0) (mt.getD k 0), "P", "pad_bot"⟩ := by
    simp only [plot_hist_ratios, zip3, harith, List.getD_eq_getElem?_getD,
      List.getElem?_cons_succ, hloop, Option.getD_some]
  rw [hE]
  refine ⟨rfl, rfl, ?_⟩
  split
  · exact ⟨rfl, rfl⟩
  · exact ⟨rfl, rfl⟩

/-- Witness for C2: two concrete two-bin histograms, `ref_place = "den"`,
`i = 1`; all hypotheses discharged at the input. -/
theorem C2_plot_hist_ratios_reference_witness :
    ((plot_hist_ratios [histExA, histExB] [3, 4] [5, 6] "den"
        "pE1").getD 2 default).pad = "pad_bot" ∧
    ((plot_hist_ratios [histExA, histExB] [3, 4] [5, 6] "den"
        "pE1").getD 2 default).hist.name = "b_over_a" := by
  have h := C2_plot_hist_ratios_reference [histExA, histExB] [3, 4] [5, 6]
    "den" "pE1" 1 (le_refl 1) (by decide) (by decide) (by decide)
  refine ⟨h.1, ?_⟩
  have h3 := h.2.2
  rw [if_pos rfl] at h3
  exact h3.1

theorem applyYaxisCfg_some (cfg : AxesConfig) (nd : Int × Int × Int)
    (ax : Axis) (hY : cfg.YNDiv = some nd) :
    applyYaxisCfg cfg ax = .ok (applyYaxisVal cfg nd ax) := by
  simp [applyYaxisCfg, applyYaxisVal, hY]

theorem applyYaxisCfg_none (cfg : AxesConfig) (ax : Axis)
    (hY : cfg.YNDiv = none) :
    applyYaxisCfg cfg ax = .error .typeError := by
  simp [applyYaxisCfg, hY]

theorem applyXaxisCfg_titleOffset (cfg : AxesConfig) (hndc : ℚ) (ax : Axis) :
    (applyXaxisCfg cfg hndc ax).titleOffset = cfg.XTitleOffset / hndc := by
  cases h : cfg.XNDiv <;> simp [applyXaxisCfg, h]

theorem applyXaxisCfg_labelOffset (cfg : AxesConfig) (hndc : ℚ) (ax : Axis) :
    (applyXaxisCfg cfg hndc ax).labelOffset = cfg.XLabelOffset / hndc := by
  cases h : cfg.XNDiv <;> simp [applyXaxisCfg, h]

theorem applyXaxisCfg_tickLength (cfg : AxesConfig) (hndc : ℚ) (ax : Axis) :
    (applyXaxisCfg cfg hndc ax).tickLength = (2/100 : ℚ) / hndc := by
  cases h : cfg.XNDiv <;> simp [applyXaxisCfg, h]

theorem exceptBind_ok {α β : Type} (x : α) (f : α → Except PyError β) :
    (Except.ok x >>= f) = f x := rfl

theorem exceptBind_error {α β : Type} (e : PyError)
    (f : α → Except PyError β) :
    ((Except.error e : Except PyError α) >>= f) = Except.error e := rfl

theorem formatLoop_skip (cfg : AxesConfig) (hndc : ℚ)
    (pre rest : List Drawable) (hpre : ∀ e ∈ pre, e.hasX = false) :
    formatLoop cfg hndc (pre ++ rest)
      = Except.map (fun r => pre ++ r) (formatLoop cfg hndc rest) := by
  induction pre with
  | nil => cases hfr : formatLoop cfg hndc rest <;> simp [Except.map, hfr]
  | cons e t ih =>
    have he : e.hasX = false := hpre e (List.mem_cons_self e t)
    have htl : ∀ x ∈ t, x.hasX = false :=
      fun x hx => hpre x (List.mem_cons_of_mem e hx)
    have hrec := ih htl
    cases hfr : formatLoop cfg hndc rest with
    | ok r =>
      rw [hfr] at hrec
      simp only [Except.map] at hrec
      simp [formatLoop, he, hrec, Except.map]
    | error err =>
      rw [hfr] at hrec
      simp only [Except.map] at hrec
      simp [formatLoop, he, hrec, Except.map]

theorem formatLoop_first_xz (cfg : AxesConfig) (hndc : ℚ) (d : Drawable)
    (rest : List Drawable) (nd : Int × Int × Int)
    (hx : d.hasX = true) (hz : d.hasZ = true) (hY : cfg.YNDiv = some nd) :
    formatLoop cfg hndc (d :: rest)
      = .ok ({ d with x := applyXaxisCfg cfg hndc d.x
                      y := applyYaxisVal cfg nd d.y
                      z := applyZaxisCfg cfg d.z } :: rest) := by
  simp [formatLoop, hx, hz, formatPrimitiveXY,
    applyYaxisCfg_some cfg nd d.y hY]

theorem formatLoop_yndiv_none (cfg : AxesConfig) (hY : cfg.YNDiv = none)
    (hndc : ℚ) (l : List Drawable) (hex : ∃ d ∈ l, d.hasX = true) :
    formatLoop cfg hndc l = .error .typeError := by
  induction l with
  | nil => simp at hex
  | cons d t ih =>
    by_cases hd : d.hasX = true
    · simp [formatLoop, hd, formatPrimitiveXY,
        applyYaxisCfg_none cfg d.y hY, exceptBind_error]
    · have hdf : d.hasX = false := by simpa using hd
      obtain ⟨e, he, hex⟩ := hex
      have het : e ∈ t := by
        cases he with
        | head => exact absurd hex hd
        | tail _ h => exact h
      simp [formatLoop, hdf, ih ⟨e, het, hex⟩]

theorem formatLoop_yndiv_some_ok (cfg : AxesConfig) (nd : Int × Int × Int)
    (hY : cfg.YNDiv = some nd) (hndc : ℚ) (l : List Drawable) :
    ∃ r, formatLoop cfg hndc l = .ok r := by
  induction l with
  | nil => exact ⟨[], rfl⟩
  | cons d t ih =>
    obtain ⟨r, hr⟩ := ih
    by_cases hd : d.hasX = true
    · by_cases hdz : d.hasZ = true
      · exact ⟨_, formatLoop_first_xz cfg hndc d t nd hd hdz hY⟩
      · have hdzf : d.hasZ = false := by simpa using hdz
        exact ⟨{ d with x := applyXaxisCfg cfg hndc d.x
                        y := applyYaxisVal cfg nd d.y } :: r,
          by simp [formatLoop, hd, hdzf, formatPrimitiveXY,
            applyYaxisCfg_some cfg nd d.y hY, hr, exceptBind_ok]⟩
    · have hdf : d.hasX = false := by simpa using hd
      exact ⟨d :: r, by simp [formatLoop, hdf, hr]⟩

/-- C3 counterexample: the claim "exactly the first X-capable drawable
is formatted; all remaining drawables are left unformatted" fails on a
region whose first X-capable primitive has no Z axis: with default
configuration and `hndc = 1/2`, the second primitive (X- and Z-capable)
is formatted as well, because the loop `continue`s instead of breaking
when the first match lacks `GetZaxis`. -/
theorem C3_counterexample :
    (format_canvas_axes {} ⟨1/2, [drawXonly, drawXZ]⟩).toOption.map
        (fun s => s.primitives.getD 1 default)
      ≠ some drawXZ := by decide

theorem formatLoop_no_xz_prefix (cfg : AxesConfig) (hndc : ℚ)
    (nd : Int × Int × Int) (hY : cfg.YNDiv = some nd)
    (pre : List Drawable) (d : Drawable) (post : List Drawable)
    (hpre : ∀ e ∈ pre, ¬ (e.hasX = true ∧ e.hasZ = true))
    (hx : d.hasX = true) (hz : d.hasZ = true) :
    formatLoop cfg hndc (pre ++ d :: post)
      = .ok (pre.map (formatNoBreak cfg hndc nd)
          ++ formatBreak cfg hndc nd d :: post) := by
  induction pre with
  | nil =>
    simpa [formatBreak] using formatLoop_first_xz cfg hndc d post nd hx hz hY
  | cons e t ih =>
    have he := hpre e (List.mem_cons_self e t)
    have ht : ∀ x ∈ t, ¬ (x.hasX = true ∧ x.hasZ = true) :=
      fun x hx' => hpre x (List.mem_cons_of_mem e hx')
    have hrec := ih ht
    by_cases hex : e.hasX = true
    · have hez : e.hasZ = false := by
        rcases Bool.eq_false_or_eq_true e.hasZ with h | h
        · exact absurd ⟨hex, h⟩ he
        · exact h
      simp [formatLoop, hex, hez, formatPrimitiveXY,
        applyYaxisCfg_some cfg nd e.y hY, hrec, exceptBind_ok, formatNoBreak]
    · have hexf : e.hasX = false := by simpa using hex
      simp [formatLoop, hexf, hrec, exceptBind_ok, formatNoBreak]

theorem formatLoop_all_no_xz (cfg : AxesConfig) (hndc : ℚ)
    (nd : Int × Int × Int) (hY : cfg.YNDiv = some nd) (l : List Drawable)
    (hl : ∀ e ∈ l, ¬ (e.hasX = true ∧ e.hasZ = true)) :
    formatLoop cfg hndc l = .ok (l.map (formatNoBreak cfg hndc nd)) := by
  induction l with
  | nil => rfl
  | cons e t ih =>
    have he := hl e (List.mem_cons_self e t)
    have ht : ∀ x ∈ t, ¬ (x.hasX = true ∧ x.hasZ = true) :=
      fun x hx' => hl x (List.mem_cons_of_mem e hx')
    have hrec := ih ht
    by_cases hex : e.hasX = true
    · have hez : e.hasZ = false := by
        rcases Bool.eq_false_or_eq_true e.hasZ with h | h
        · exact absurd ⟨hex, h⟩ he
        · exact h
      simp [formatLoop, hex, hez, formatPrimitiveXY,
        applyYaxisCfg_some cfg nd e.y hY, hrec, exceptBind_ok, formatNoBreak]
    · have hexf : e.hasX = false := by simpa using hex
      simp [formatLoop, hexf, hrec, exceptBind_ok, formatNoBreak]

/-- C3 (amended): `format_canvas_axes` applies the axis configuration to
every drawable with a horizontal axis, in order, up to and including the
first one that also exposes a Z axis (`formatBreak`), then stops:
drawables without an X axis are skipped unchanged, X-capable drawables
before the break point receive the X- and Y-axis configuration
(`formatNoBreak`), and every drawable after the break point is left
unformatted; when no drawable has both axes the loop runs to the end,
formatting every X-capable drawable.  In particular, when the first
X-capable drawable also has a Z axis, exactly that drawable is formatted
and all other drawables are left unformatted. -/
theorem C3_formats_up_to_first_xz (cfg : AxesConfig) (pad : PadState)
    (nd : Int × Int × Int) (hY : cfg.YNDiv = some nd) :
    (∀ pre d post, pad.primitives = pre ++ d :: post →
      (∀ e ∈ pre, ¬ (e.hasX = true ∧ e.hasZ = true)) →
      d.hasX = true → d.hasZ = true →
      format_canvas_axes cfg pad
        = .ok { pad with
                primitives :=
                  pre.map (formatNoBreak cfg pad.hndc nd)
                    ++ formatBreak cfg pad.hndc nd d :: post }) ∧
    ((∀ e ∈ pad.primitives, ¬ (e.hasX = true ∧ e.hasZ = true)) →
      format_canvas_axes cfg pad
        = .ok { pad with
                primitives :=
                  pad.primitives.map (formatNoBreak cfg pad.hndc nd) }) := by
  constructor
  · intro pre d post hp hpre hx hz
    have h1 := formatLoop_no_xz_prefix cfg pad.hndc nd hY pre d post hpre hx hz
    simp [format_canvas_axes, hp, h1, exceptBind_ok]
  · intro hl
    have h1 := formatLoop_all_no_xz cfg pad.hndc nd hY pad.primitives hl
    simp [format_canvas_axes, h1, exceptBind_ok]

/-- Witness for the amended C3: on `[drawXonly, drawXZ, drawXonly]` the
X-only head is formatted (X/Y blocks), the X-and-Z second drawable is
formatted and breaks, the trailing drawable is untouched; on
`[drawXonly, drawXonly]` (no Z-capable drawable) both are formatted. -/
theorem C3_formats_up_to_first_xz_witness :
    format_canvas_axes {} ⟨1, [drawXonly, drawXZ, drawXonly]⟩
      = .ok ⟨1, [formatNoBreak {} 1 (10, 5, 0) drawXonly,
                 formatBreak {} 1 (10, 5, 0) drawXZ, drawXonly]⟩ ∧
    format_canvas_axes {} ⟨1, [drawXonly, drawXonly]⟩
      = .ok ⟨1, [formatNoBreak {} 1 (10, 5, 0) drawXonly,
                 formatNoBreak {} 1 (10, 5, 0) drawXonly]⟩ :=
  ⟨(C3_formats_up_to_first_xz {} ⟨1, [drawXonly, drawXZ, drawXonly]⟩
      (10, 5, 0) rfl).1 [drawXonly] drawXZ [drawXonly] rfl
      (by decide) rfl rfl,
   (C3_formats_up_to_first_xz {} ⟨1, [drawXonly, drawXonly]⟩
      (10, 5, 0) rfl).2 (by decide)⟩

/-- C6: on the formatted drawable, the X-axis title offset, label offset
and (fixed `0.02`) tick length are the configured values divided by the
region's normalized height fraction `GetHNDC`, while the Y- and Z-axis
title and label offsets are the configured values unscaled. -/
theorem C6_axis_offset_scaling (cfg : AxesConfig) (pad : PadState)
    (d : Drawable) (rest : List Drawable) (nd : Int × Int × Int)
    (hp : pad.primitives = d :: rest) (hx : d.hasX = true)
    (hz : d.hasZ = true) (hY : cfg.YNDiv = some nd) :
    ∃ d', format_canvas_axes cfg pad
        = .ok { pad with primitives := d' :: rest } ∧
      d'.x.titleOffset = cfg.XTitleOffset / pad.hndc ∧
      d'.x.labelOffset = cfg.XLabelOffset / pad.hndc ∧
      d'.x.tickLength = (2/100 : ℚ) / pad.hndc ∧
      d'.y.titleOffset = cfg.YTitleOffset ∧
      d'.y.labelOffset = cfg.YLabelOffset ∧
      d'.z.titleOffset = cfg.ZTitleOffset ∧
      d'.z.labelOffset = cfg.ZLabelOffset := by
  have h1 := formatLoop_first_xz cfg pad.hndc d rest nd hx hz hY
  refine ⟨{ d with x := applyXaxisCfg cfg pad.hndc d.x
                   y := applyYaxisVal cfg nd d.y
                   z := applyZaxisCfg cfg d.z },
    ?_, applyXaxisCfg_titleOffset cfg pad.hndc d.x,
    applyXaxisCfg_labelOffset cfg pad.hndc d.x,
    applyXaxisCfg_tickLength cfg pad.hndc d.x, rfl, rfl, rfl, rfl⟩
  simp [format_canvas_axes, hp, h1, exceptBind_ok]

/-- Witness for C6 on a one-drawable region with `hndc = 1/2` and the
default configuration. -/
theorem C6_axis_offset_scaling_witness :
    ∃ d', format_canvas_axes {} ⟨1/2, [drawXZ]⟩ = .ok ⟨1/2, [d']⟩ ∧
      d'.x.titleOffset = ({} : AxesConfig).XTitleOffset / (1/2) ∧
      d'.x.labelOffset = ({} : AxesConfig).XLabelOffset / (1/2) ∧
      d'.x.tickLength = (2/100 : ℚ) / (1/2) ∧
      d'.y.titleOffset = ({} : AxesConfig).YTitleOffset ∧
      d'.y.labelOffset = ({} : AxesConfig).YLabelOffset ∧
      d'.z.titleOffset = ({} : AxesConfig).ZTitleOffset ∧
      d'.z.labelOffset = ({} : AxesConfig).ZLabelOffset :=
  C6_axis_offset_scaling {} ⟨1/2, [drawXZ]⟩ drawXZ [] (10, 5, 0)
    rfl rfl rfl rfl

/-- C10: `XNDiv` is consulted only when truthy, but `YNDiv` is
subscripted unconditionally: on any region containing an X-capable
drawable, `YNDiv = None` makes `format_canvas_axes` raise a `TypeError`
(for any `XNDiv`, including `None`), whereas with any division triple in
`YNDiv` the call succeeds (so `XNDiv = None` alone is skipped safely). -/
theorem C10_yndiv_none_type_error (cfg : AxesConfig) (pad : PadState)
    (hY : cfg.YNDiv = none)
    (hex : ∃ d ∈ pad.primitives, d.hasX = true) :
    format_canvas_axes cfg pad = .error .typeError ∧
    ∀ nd : Int × Int × Int, ∃ pad',
      format_canvas_axes { cfg with YNDiv := some nd } pad = .ok pad' := by
  constructor
  · have h1 := formatLoop_yndiv_none cfg hY pad.hndc pad.primitives hex
    simp [format_canvas_axes, h1, exceptBind_error]
  · intro nd
    obtain ⟨r, hr⟩ := formatLoop_yndiv_some_ok { cfg with YNDiv := some nd }
      nd rfl pad.hndc pad.primitives
    exact ⟨{ pad with primitives := r },
      by simp [format_canvas_axes, hr, exceptBind_ok]⟩

/-- Witness for C10: the default configuration with `YNDiv := None` on a
one-drawable region raises, and restoring a division triple succeeds. -/
theorem C10_yndiv_none_type_error_witness :
    format_canvas_axes { YNDiv := none } ⟨1, [drawXZ]⟩
      = .error .typeError ∧
    ∃ pad', format_canvas_axes
        { ({ YNDiv := none } : AxesConfig) with YNDiv := some (10, 5, 0) }
        ⟨1, [drawXZ]⟩ = .ok pad' :=
  ⟨(C10_yndiv_none_type_error { YNDiv := none } ⟨1, [drawXZ]⟩ rfl
      ⟨drawXZ, by simp, rfl⟩).1,
   (C10_yndiv_none_type_error { YNDiv := none } ⟨1, [drawXZ]⟩ rfl
      ⟨drawXZ, by simp, rfl⟩).2 (10, 5, 0)⟩

theorem shiftLoop_size (i j : Nat) (u : Int) (bs : List Nat) (s : Store) :
    (shiftLoop i j u bs s).size = s.size := by
  induction bs generalizing s with
  | nil => rfl
  | cons b t ih =>
    simp only [shiftLoop]
    rw [ih, Store.size_write]

theorem shiftLoop_read_ne (i j : Nat) (u : Int) (bs : List Nat)
    (s : Store) (k : Nat) (hk : k ≠ j) :
    Store.read (shiftLoop i j u bs s) k = Store.read s k := by
  induction bs generalizing s with
  | nil => rfl
  | cons b t ih =>
    simp only [shiftLoop]
    rw [ih, Store.read_write_ne _ _ _ _ hk]

theorem shiftLoop_read_j (i j : Nat) (u : Int) (bs : List Nat) (s : Store)
    (hij : i ≠ j) (hj : j < s.size) (x : Int) :
    (Store.read (shiftLoop i j u bs s) j).content x
      = if ∃ b ∈ bs, (b : Int) + u = x
        then (Store.read s i).content (x - u)
        else (Store.read s j).content x := by
  induction bs generalizing s with
  | nil => simp [shiftLoop]
  | cons b t ih =>
    simp only [shiftLoop]
    rw [ih (Store.write s j (Hist.SetBinContent ((b : Int) + u)
          ((Store.read s i).content (b : Int))))
        (by rw [Store.size_write]; exact hj),
      Store.read_write_ne s j i _ hij,
      Store.read_write_self s j _ hj]
    by_cases hbt : ∃ b' ∈ t, (b' : Int) + u = x
    · have hcons : ∃ b' ∈ b :: t, (b' : Int) + u = x := by
        obtain ⟨b', hb', he⟩ := hbt
        exact ⟨b', List.mem_cons_of_mem b hb', he⟩
      rw [if_pos hbt, if_pos hcons]
    · by_cases hbx : (b : Int) + u = x
      · have hcons : ∃ b' ∈ b :: t, (b' : Int) + u = x :=
          ⟨b, List.mem_cons_self b t, hbx⟩
        rw [if_neg hbt, if_pos hcons]
        simp only [Hist.SetBinContent]
        rw [if_pos hbx.symm]
        congr 1
        omega
      · have hcons : ¬ ∃ b' ∈ b :: t, (b' : Int) + u = x := by
          rintro ⟨b', hb', he⟩
          rcases List.mem_cons.mp hb' with h | h
          · exact hbx (h ▸ he)
          · exact hbt ⟨b', h, he⟩
        rw [if_neg hbt, if_neg hcons]
        simp only [Hist.SetBinContent]
        rw [if_neg (fun h => hbx (Eq.symm h))]

theorem Store.read_append_one (s : Store) (a : Hist) (k : Nat)
    (hk : k < Store.size s) :
    Store.read (s ++ [a]) k = Store.read s k := by
  simp [Store.read, List.getD_eq_getElem?_getD, List.getElem?_append_left hk]

theorem Store.density_frame (s : Store) (i k : Nat)
    (hk : k < Store.size s) :
    Store.read (Store.density s i).1 k = Store.read s k := by
  have hkj : k ≠ Store.size s := Nat.ne_of_lt hk
  simp only [Store.density, Store.clone]
  rw [Store.read_write_ne _ _ _ _ hkj, Store.read_write_ne _ _ _ _ hkj]
  exact Store.read_append_one s _ k hk

theorem Store.divide_frame (s : Store) (inum iden k : Nat)
    (hk : k < Store.size s) :
    Store.read (Store.divide s inum iden).1 k = Store.read s k := by
  have hkj : k ≠ Store.size s := Nat.ne_of_lt hk
  simp only [Store.divide, Store.clone]
  rw [Store.read_write_ne _ _ _ _ hkj, Store.read_write_ne _ _ _ _ hkj]
  exact Store.read_append_one s _ k hk

theorem Store.histDivide_frame (s : Store) (inum iden k : Nat)
    (hk : k < Store.size s) :
    Store.read (Store.histDivide s inum iden).1 k = Store.read s k := by
  have hkj : k ≠ Store.size s := Nat.ne_of_lt hk
  simp only [Store.histDivide, Store.clone]
  rw [Store.read_write_ne _ _ _ _ hkj, Store.read_write_ne _ _ _ _ hkj]
  exact Store.read_append_one s _ k hk

theorem Store.shift_frame (s : Store) (i k : Nat) (u : Int)
    (hk : k < Store.size s) :
    Store.read (Store.shift s i u).1 k = Store.read s k := by
  have hkj : k ≠ Store.size s := Nat.ne_of_lt hk
  simp only [Store.shift, Store.clone]
  rw [shiftLoop_read_ne _ _ _ _ _ _ hkj,
    Store.read_write_ne _ _ _ _ hkj, Store.read_write_ne _ _ _ _ hkj]
  exact Store.read_append_one s _ k hk

/-- C8: none of `density`, `divide`, `shift` (hist2d) or `hist_divide`
(plots) mutates any existing histogram in the store: every pre-existing
reference dereferences to the same object afterwards, and each helper
returns a freshly allocated reference (the clone, at the old store
size). -/
theorem C8_cloning_helpers_no_mutation (s : Store) (i inum iden k : Nat)
    (u : Int) (hk : k < Store.size s) :
    Store.read (Store.density s i).1 k = Store.read s k ∧
    Store.read (Store.divide s inum iden).1 k = Store.read s k ∧
    Store.read (Store.shift s i u).1 k = Store.read s k ∧
    Store.read (Store.histDivide s inum iden).1 k = Store.read s k ∧
    (Store.density s i).2 = Store.size s ∧
    (Store.divide s inum iden).2 = Store.size s ∧
    (Store.shift s i u).2 = Store.size s ∧
    (Store.histDivide s inum iden).2 = Store.size s :=
  ⟨Store.density_frame s i k hk, Store.divide_frame s inum iden k hk,
   Store.shift_frame s i k u hk, Store.histDivide_frame s inum iden k hk,
   rfl, rfl, rfl, rfl⟩

/-- Witness for C8 on a two-histogram store, checking the preserved
entry at index 1. -/
theorem C8_cloning_helpers_no_mutation_witness :
    (1 < Store.size [histExA, histExB]) ∧
    (Store.read (Store.density [histExA, histExB] 0).1 1
        = Store.read [histExA, histExB] 1 ∧
     Store.read (Store.divide [histExA, histExB] 0 1).1 1
        = Store.read [histExA, histExB] 1 ∧
     Store.read (Store.shift [histExA, histExB] 0 1).1 1
        = Store.read [histExA, histExB] 1 ∧
     Store.read (Store.histDivide [histExA, histExB] 0 1).1 1
        = Store.read [histExA, histExB] 1 ∧
     (Store.density [histExA, histExB] 0).2 = Store.size [histExA, histExB] ∧
     (Store.divide [histExA, histExB] 0 1).2 = Store.size [histExA, histExB] ∧
     (Store.shift [histExA, histExB] 0 1).2 = Store.size [histExA, histExB] ∧
     (Store.histDivide [histExA, histExB] 0 1).2
        = Store.size [histExA, histExB]) :=
  ⟨by decide,
   C8_cloning_helpers_no_mutation [histExA, histExB] 0 0 1 1 1 (by decide)⟩

/-- C9: for a histogram with `N` x-axis bins, `shift(hist, s)` copies
bins `1 .. N-1` of the input into bins `1+s .. N-1+s` of the clone; bin
`N` is never copied, because `range(1, N)` excludes the upper bound —
the result's bin `N + s` keeps its reset value `0`. -/
theorem C9_shift_drops_last_bin (s : Store) (i : Nat) (u : Int)
    (hi : i < Store.size s) :
    (∀ b : Nat, 1 ≤ b → b ≤ (Store.read s i).nbinsX - 1 →
      (Store.read (Store.shift s i u).1 (Store.shift s i u).2).content
          ((b : Int) + u)
        = (Store.read s i).content (b : Int)) ∧
    (Store.read (Store.shift s i u).1 (Store.shift s i u).2).content
        (((Store.read s i).nbinsX : Int) + u) = 0 := by
  have hij : i ≠ Store.size s := Nat.ne_of_lt hi
  have hmain : ∀ x : Int,
      (Store.read (Store.shift s i u).1 (Store.shift s i u).2).content x
        = if ∃ b ∈ List.range' 1 ((Store.read s i).nbinsX - 1),
              (b : Int) + u = x
          then (Store.read s i).content (x - u) else 0 := by
    intro x
    simp only [Store.shift, Store.clone]
    rw [shiftLoop_read_j _ _ _ _ _ hij
        (by rw [Store.size_write, Store.size_write]
            simp [Store.size])]
    rw [Store.read_write_ne _ _ _ _ hij, Store.read_write_ne _ _ _ _ hij,
      Store.read_append_one s _ i hi]
    rw [Store.read_write_self _ _ _
        (by rw [Store.size_write]; simp [Store.size])]
    rw [Store.read_write_self _ _ _ (by simp [Store.size])]
    simp [Hist.ResetM]
  constructor
  · intro b hb1 hb2
    rw [hmain]
    have hmem : ∃ b' ∈ List.range' 1 ((Store.read s i).nbinsX - 1),
        (b' : Int) + u = (b : Int) + u := by
      refine ⟨b, ?_, rfl⟩
      rw [List.mem_range']
      exact ⟨b - 1, by omega, by omega⟩
    rw [if_pos hmem]
    congr 1
    omega
  · rw [hmain]
    have hnomem : ¬ ∃ b' ∈ List.range' 1 ((Store.read s i).nbinsX - 1),
        (b' : Int) + u = ((Store.read s i).nbinsX : Int) + u := by
      rintro ⟨b', hb', he⟩
      rw [List.mem_range'] at hb'
      obtain ⟨m, hm, rfl⟩ := hb'
      omega
    rw [if_neg hnomem]

/-- Witness for C9: a one-entry store holding a two-bin histogram,
shifted by one unit; bin 1 is copied to bin 2 and the overflow target
bin `2 + 1` stays 0. -/
theorem C9_shift_drops_last_bin_witness :
    ((Store.read (Store.shift [histExA] 0 1).1
        (Store.shift [histExA] 0 1).2).content (((1 : Nat) : Int) + 1)
      = (Store.read [histExA] 0).content ((1 : Nat) : Int)) ∧
    ((Store.read (Store.shift [histExA] 0 1).1
        (Store.shift [histExA] 0 1).2).content
          (((Store.read [histExA] 0).nbinsX : Int) + 1) = 0) := by
  have h := C9_shift_drops_last_bin [histExA] 0 1 (by decide)
  exact ⟨h.1 1 (by decide) (by decide), h.2⟩

end Rootplotlib
